import Mathlib

/-!
Verification of window-management and workbench-service behaviour of the
vscroxy repository, via a shallow embedding of the relevant TypeScript
source into Lean.

JavaScript numbers that only ever undergo comparison and the four
arithmetic operations are embedded as `Int` (window coordinates, sizes)
or as `ℚ` where a non-integral constant such as `Number.MIN_VALUE`
matters (focus timestamps).  `undefined`-able values are `Option`,
thrown errors are `Except`.
-/

namespace VSCroxy

/-- Embeds `WindowMode` from `vs/platform/window/electron-main/window` (referenced
by the sources under verification; only the distinctness of its
constructors is used). -/
inductive WindowMode
  | Maximized
  | Normal
  | Minimized
  | Fullscreen
deriving DecidableEq, Repr

/-- An `electron.Rectangle`: numeric x/y/width/height. -/
structure Rect where
  x : Int
  y : Int
  width : Int
  height : Int
deriving DecidableEq, Repr

/-- An `electron.Display`: an id together with full bounds and the work
area (bounds minus taskbars etc.). -/
structure Display where
  id : Int
  bounds : Rect
  workArea : Rect
deriving DecidableEq, Repr

/-- Embeds `IWindowState` from `vs/platform/window/electron-main/window`: every
field may be absent (`undefined` in TS); `none` also stands for a value
whose `typeof` is not `'number'`. -/
structure IWindowState where
  x : Option Int := none
  y : Option Int := none
  width : Option Int := none
  height : Option Int := none
  mode : WindowMode := WindowMode.Normal
  display : Option Int := none
  zoomLevel : Option Int := none
deriving DecidableEq, Repr

/-- Embeds `WindowStateValidator.getWorkingArea` (windows.ts): prefer the
display's work area when its sizes are positive, fall back to the raw
bounds, otherwise report no usable area. -/
def getWorkingArea (display : Display) : Option Rect :=
  if display.workArea.width > 0 ∧ display.workArea.height > 0 then
    some display.workArea
  else if display.bounds.width > 0 ∧ display.bounds.height > 0 then
    some display.bounds
  else
    none

/-- Embeds `WindowStateValidator.validateWindowState` (windows.ts).

The two external electron facilities it consults are passed as
parameters: `getDisplayMatching` stands for
`electron.screen.getDisplayMatching` (with `none` covering both "no
display" and the error path the code catches), and `defaultWindowState`
stands for the helper of the same name from
`vs/platform/window/electron-main/window`.

The `match displays with | [d]` arm is the `displays.length === 1`
branch indexing `displays[0]`; its body is the sequence of in-place
mutations of `state`, written as successive `let` bindings in source
order (`ensureStateInDisplayWorkingArea`; width/height clamps; the
128-pixel right/bottom pushbacks; `ensureStateInDisplayWorkingArea`
again). -/
def validateWindowState (state : IWindowState) (displays : List Display)
    (getDisplayMatching : Rect → Option Display)
    (defaultWindowState : WindowMode → IWindowState) : Option IWindowState :=
  match state.x, state.y, state.width, state.height with
  | some x, some y, some w, some h =>
    if w ≤ 0 ∨ h ≤ 0 then
      none
    else
      match displays with
      | [d] =>
        match getWorkingArea d with
        | none => some state
        | some wa =>
          let x1 := if x < wa.x then wa.x else x
          let y1 := if y < wa.y then wa.y else y
          let w1 := if w > wa.width then wa.width else w
          let h1 := if h > wa.height then wa.height else h
          let x2 := if x1 > wa.x + wa.width - 128 then wa.x + wa.width - w1 else x1
          let y2 := if y1 > wa.y + wa.height - 128 then wa.y + wa.height - h1 else y1
          let x3 := if x2 < wa.x then wa.x else x2
          let y3 := if y2 < wa.y then wa.y else y2
          some { state with x := some x3, y := some y3, width := some w1, height := some h1 }
      | _ =>
        -- Multi monitor (fullscreen): `state.display` is tested for JS
        -- truthiness, so a missing id and the id 0 both skip this branch;
        -- when the display is found its numeric bounds are always
        -- `typeof ... === 'number'` in this embedding.
        let fullscreenRestore : Option IWindowState :=
          if state.display.getD 0 ≠ 0 ∧ state.mode = WindowMode.Fullscreen then
            match displays.find? (fun d => d.id = state.display.getD 0) with
            | some d =>
              let defaults := defaultWindowState WindowMode.Fullscreen
              some { defaults with x := some d.bounds.x, y := some d.bounds.y }
            | none => none
          else
            none
        match fullscreenRestore with
        | some s => some s
        | none =>
          match getDisplayMatching ⟨x, y, w, h⟩ with
          | none => none
          | some d =>
            match getWorkingArea d with
            | none => none
            | some dwa =>
              if x + w > dwa.x ∧ y + h > dwa.y ∧
                  x < dwa.x + dwa.width ∧ y < dwa.y + dwa.height then
                some state
              else
                none
  | _, _, _, _ => none

/-- Embeds `getLastFocused` (windows.ts) works on windows exposing a numeric
`lastFocusTime`; timestamps are embedded as `ℚ` because the algorithm's
initial maximum is the non-integral JS constant `Number.MIN_VALUE`. -/
structure FocusWindow where
  id : Int
  lastFocusTime : ℚ
deriving DecidableEq, Repr

/-- Embeds `Number.MIN_VALUE`: the smallest positive double, `2 ^ (-1074)`. -/
def jsNumberMinValue : ℚ := 1 / 2 ^ 1074

/-- The loop of `getLastFocused` (windows.ts): `best` is
`lastFocusedWindow`, `maxT` is `maxLastFocusTime`; an element replaces
the running maximum only when strictly greater. -/
def getLastFocusedGo : List FocusWindow → Option FocusWindow → ℚ → Option FocusWindow
  | [], best, _ => best
  | w :: ws, best, maxT =>
    if maxT < w.lastFocusTime then getLastFocusedGo ws (some w) w.lastFocusTime
    else getLastFocusedGo ws best maxT

/-- Embeds `getLastFocused` (windows.ts): fold over the window list starting
from no window and `Number.MIN_VALUE`. -/
def getLastFocused (windows : List FocusWindow) : Option FocusWindow :=
  getLastFocusedGo windows none jsNumberMinValue

/-- Embeds `electron.WebPreferences`, restricted to the fields
`defaultBrowserWindowOptions` writes; `none` means the caller did not
supply the field. -/
structure WebPreferences where
  sandbox : Option Bool := none
  enableWebSQL : Option Bool := none
  spellcheck : Option Bool := none
  zoomFactor : Option ℚ := none
  autoplayPolicy : Option String := none
  enableBlinkFeatures : Option String := none
deriving DecidableEq, Repr

/-- The `titleBarOverlay` literal of `defaultBrowserWindowOptions`. -/
structure TitleBarOverlay where
  height : Int
deriving DecidableEq, Repr

/-- Embeds `IDefaultBrowserWindowOptionsOverrides` (windows.ts). -/
structure DefaultBrowserWindowOptionsOverrides where
  forceNativeTitlebar : Option Bool := none
  disableFullscreen : Option Bool := none
deriving DecidableEq, Repr

/-- The `electron.BrowserWindowConstructorOptions & { experimentalDarkMode }`
object built by `defaultBrowserWindowOptions`, restricted to the fields
the function writes. -/
structure BrowserWindowOptions where
  minWidth : Int
  minHeight : Int
  title : String
  show_ : Bool
  x : Option Int
  y : Option Int
  width : Option Int
  height : Option Int
  webPreferences : WebPreferences
  experimentalDarkMode : Bool
  titleBarStyle : Option String
  acceptFirstMouse : Option Bool
  titleBarOverlay : Option TitleBarOverlay
deriving DecidableEq, Repr

/-- The ambient facts `defaultBrowserWindowOptions` reads from services
and platform helpers outside this repository:
`productService.nameLong`, `isMacintosh`, `useWindowControlsOverlay()`,
`WindowMinimumSize` and `zoomLevelToZoomFactor`. -/
structure WindowsEnv where
  nameLong : String
  isMacintosh : Bool
  windowControlsOverlay : Bool
  minWidth : Int
  minHeight : Int
  zoomLevelToZoomFactor : Int → ℚ

/-- Embeds `defaultBrowserWindowOptions` (windows.ts).  The caller-supplied
`webPreferences` are spread first and then overwritten field by field
by the literal entries (`enableWebSQL: false`, `spellcheck: false`,
`zoomFactor`, `autoplayPolicy`, `enableBlinkFeatures`,
`sandbox: true`); `overrides` is accepted but never read by the body,
and `titleBarStyle` is unconditionally set to `'hidden'` afterwards. -/
def defaultBrowserWindowOptions (env : WindowsEnv) (windowState : IWindowState)
    (overrides : Option DefaultBrowserWindowOptionsOverrides := none)
    (webPrefs : WebPreferences := {}) : BrowserWindowOptions :=
  let options : BrowserWindowOptions := {
    minWidth := env.minWidth
    minHeight := env.minHeight
    title := env.nameLong
    show_ := decide (windowState.mode ≠ WindowMode.Maximized ∧
      windowState.mode ≠ WindowMode.Fullscreen)
    x := windowState.x
    y := windowState.y
    width := windowState.width
    height := windowState.height
    webPreferences := { webPrefs with
      enableWebSQL := some false
      spellcheck := some false
      zoomFactor := some (env.zoomLevelToZoomFactor (windowState.zoomLevel.getD 1))
      autoplayPolicy := some "user-gesture-required"
      enableBlinkFeatures := some "HighlightAPI"
      sandbox := some true }
    experimentalDarkMode := true
    titleBarStyle := none
    acceptFirstMouse := none
    titleBarOverlay := none }
  let options := { options with titleBarStyle := some "hidden" }
  let options :=
    if env.isMacintosh then { options with acceptFirstMouse := some true } else options
  let options :=
    if env.windowControlsOverlay then
      { options with titleBarOverlay := some ⟨40⟩ }
    else options
  options

/-! ### Command service (commandService.ts) -/

/-- Errors observable from `CommandService.executeCommand`: the `Error`
the service itself constructs when the command id is unknown (carrying
its message), or a value thrown by the command handler. -/
inductive CommandError
  | notFound (message : String)
  | thrown (message : String)
deriving DecidableEq, Repr

/-- Observable event firings of `CommandService`, in order; the ghost
`handlerInvoked` marks the point where
`instantiationService.invokeFunction(command.handler, ...)` runs. -/
inductive CommandEvent
  | willExecuteCommand (commandId : String) (args : List Int)
  | handlerInvoked (commandId : String) (args : List Int)
  | didExecuteCommand (commandId : String) (args : List Int)
deriving DecidableEq, Repr

/-- A command handler: may return a value or throw. -/
def CommandHandler : Type := List Int → Except String Int

/-- Embeds `CommandsRegistry.getCommand`, as the map from command ids to
registered handlers. -/
def CommandsRegistry : Type := String → Option CommandHandler

/-- Embeds `CommandService._tryExecuteCommand` (commandService.ts): reject with
`command '<id>' not found` when the registry has no such command;
otherwise fire `onWillExecuteCommand`, invoke the handler, and fire
`onDidExecuteCommand` only if the handler returned normally, rejecting
with the thrown error otherwise.  The second component is the trace of
event firings. -/
def tryExecuteCommand (registry : CommandsRegistry) (id : String) (args : List Int) :
    Except CommandError Int × List CommandEvent :=
  match registry id with
  | none => (.error (.notFound ("command '" ++ id ++ "' not found")), [])
  | some handler =>
    match handler args with
    | .ok result =>
      (.ok result,
        [.willExecuteCommand id args, .handlerInvoked id args, .didExecuteCommand id args])
    | .error e =>
      (.error (.thrown e), [.willExecuteCommand id args, .handlerInvoked id args])

/-- Embeds `CommandService.executeCommand` (commandService.ts): logs and
delegates to `_tryExecuteCommand`. -/
def executeCommand (registry : CommandsRegistry) (id : String) (args : List Int) :
    Except CommandError Int × List CommandEvent :=
  tryExecuteCommand registry id args

/-- A sample registry with a single registered command returning 42,
used to evaluate `executeCommand` at concrete inputs. -/
def sampleRegistry : CommandsRegistry := fun id =>
  if id = "sample.command" then some (fun _ => .ok 42) else none

/-- A sample registry whose single registered command throws, used to
evaluate the rejection path at concrete inputs. -/
def sampleThrowingRegistry : CommandsRegistry := fun id =>
  if id = "boom.command" then some (fun _ => .error "boom") else none

/-! ### Stubbed services (configurationService.ts, workbenchThemeService.ts) -/

namespace WorkbenchConfigurationService

/-- Embeds `getConfigurationData` (configurationService.ts): throws. -/
def getConfigurationData : Except String Unit := .error "Method not implemented."

/-- Embeds `updateValue` (configurationService.ts): throws for every key/value. -/
def updateValue (key : String) (value : String) : Except String Unit :=
  .error "Method not implemented."

/-- Embeds `inspect` (configurationService.ts): throws for every key. -/
def inspect (key : String) : Except String Unit := .error "Method not implemented."

/-- Embeds `reloadConfiguration` (configurationService.ts): throws for every
target. -/
def reloadConfiguration (target : Option Int) : Except String Unit :=
  .error "Method not implemented."

/-- Embeds `keys` (configurationService.ts): throws. -/
def keys : Except String Unit := .error "Method not implemented."

/-- Embeds `whenRemoteConfigurationLoaded` (configurationService.ts): throws. -/
def whenRemoteConfigurationLoaded : Except String Unit := .error "Method not implemented."

/-- Embeds `isSettingAppliedForAllProfiles` (configurationService.ts): throws for
every setting. -/
def isSettingAppliedForAllProfiles (setting : String) : Except String Bool :=
  .error "Method not implemented."

end WorkbenchConfigurationService

namespace WorkbenchThemeService

/-- Embeds `getFileIconTheme` (workbenchThemeService.ts): throws. -/
def getFileIconTheme : Except String Unit := .error "Method not implemented."

end WorkbenchThemeService

/-! ### Multi-window aware timeouts (window.ts, `BaseWindow.enableMultiWindowAwareTimeout`) -/

/-- A window as seen by the scheduling loop: whether it is an auxiliary
window and whether its `document.visibilityState` is `'hidden'`. -/
structure WinInfo where
  isAuxiliary : Bool
  hidden : Bool
deriving DecidableEq, Repr

/-- The loop condition of `enableMultiWindowAwareTimeout`: a per-window
native timer is scheduled unless the window is an auxiliary window whose
document is hidden (the main window is never skipped). -/
def schedulesEntry (w : WinInfo) : Bool := !(w.isAuxiliary && w.hidden)

/-- Modelled from the spec: `createSingleCallFunction` lives in
`vs/base/common/functional.ts`, which is not under `src/`; only its
caller `enableMultiWindowAwareTimeout` is.  Per the spec's description
of the multi-window timeout patching, the wrapper runs the underlying
handler at most once and then runs the given clean-up callback; it is
embedded here as the `singleCallDone` flag of this state: the shared
state of one timeout scheduled through the patched `setTimeout` with a
function handler, nonzero delay and more than one window.
`entriesDidClear` holds, per scheduled per-window native timer, its
`didClear` flag; `handlerRuns` counts executions of the user handler. -/
structure MultiTimeout where
  singleCallDone : Bool
  handlerRuns : Nat
  entriesDidClear : List Bool
deriving DecidableEq, Repr

/-- The state created by the patched `setTimeout` on the multi-window
path: the handler has not run, and one entry with `didClear = false`
exists per non-skipped window. -/
def scheduleMultiTimeout (wins : List WinInfo) : MultiTimeout :=
  { singleCallDone := false
    handlerRuns := 0
    entriesDidClear := (wins.filter (fun w => schedulesEntry w)).map (fun _ => false) }

/-- Outcome of the patched `setTimeout`: delegation to the original
`setTimeout`, or the multi-window scheduling state. -/
inductive SetTimeoutOutcome
  | native
  | multi (s : MultiTimeout)
deriving DecidableEq, Repr

/-- The patched `targetWindow.setTimeout` (window.ts): delegate to the
original when there is a single window, a string handler, or zero
timeout; otherwise create a fresh handle with per-window timers. -/
def patchedSetTimeout (windowsCount : Nat) (handlerIsString : Bool) (timeout : Nat)
    (wins : List WinInfo) : SetTimeoutOutcome :=
  if windowsCount = 1 ∨ handlerIsString ∨ timeout = 0 then .native
  else .multi (scheduleMultiTimeout wins)

/-- The native timer of entry `i` fires (window.ts, the closure passed to
`vscodeOriginalSetTimeout`): nothing happens if the entry was cleared
(`didClear`); otherwise the single-call wrapper runs, and on its first
call it executes the handler and disposes every entry of this timeout. -/
def fireEntry (s : MultiTimeout) (i : Nat) : MultiTimeout :=
  match s.entriesDidClear.get? i with
  | none => s
  | some true => s
  | some false =>
    if s.singleCallDone then s
    else
      { singleCallDone := true
        handlerRuns := s.handlerRuns + 1
        entriesDidClear := s.entriesDidClear.map (fun _ => true) }

/-- Any interleaving of native timer firings. -/
def fireAll (s : MultiTimeout) (fires : List Nat) : MultiTimeout :=
  fires.foldl fireEntry s

/-- The patched `clearTimeout` (window.ts) on a handle that is still in
`TIMEOUT_DISPOSABLES`: dispose every per-window entry, which sets its
`didClear` flag and clears the native timer in that window. -/
def patchedClearTimeout (s : MultiTimeout) : MultiTimeout :=
  { s with entriesDidClear := s.entriesDidClear.map (fun _ => true) }

/-! ### Part registry (layout.ts, `Layout.registerPart` / `Layout.getPart`) -/

/-- A workbench `Part`, identified by `getId()`; `tag` distinguishes
distinct part objects that happen to share an id. -/
structure Part where
  id : String
  tag : Nat
deriving DecidableEq, Repr

/-- The `parts: Map<string, Part>` of `Layout`, as an association list
with the insertion-order/replacement semantics of a JS `Map`. -/
def PartsMap : Type := List (String × Part)

/-- JS `Map.prototype.set`: replace the entry in place when the key is
present, append otherwise. -/
def mapSet (m : PartsMap) (k : String) (v : Part) : PartsMap :=
  match m with
  | [] => [(k, v)]
  | (k', v') :: rest => if k' = k then (k, v) :: rest else (k', v') :: mapSet rest k v

/-- JS `Map.prototype.get`. -/
def mapGet (m : PartsMap) (k : String) : Option Part :=
  match m with
  | [] => none
  | (k', v') :: rest => if k' = k then some v' else mapGet rest k

/-- JS `Map.prototype.delete`. -/
def mapDelete (m : PartsMap) (k : String) : PartsMap :=
  match m with
  | [] => []
  | (k', v') :: rest => if k' = k then rest else (k', v') :: mapDelete rest k

/-- Embeds `Layout.registerPart` (layout.ts): store the part under its id and
return the updated map together with the action of the returned
disposable, which deletes that id. -/
def registerPart (m : PartsMap) (p : Part) : PartsMap × (PartsMap → PartsMap) :=
  (mapSet m p.id p, fun m' => mapDelete m' p.id)

/-- Embeds `Layout.getPart` (layout.ts): look the key up and throw
`Unknown part <key>` when absent. -/
def getPart (m : PartsMap) (key : String) : Except String Part :=
  match mapGet m key with
  | some part => .ok part
  | none => .error ("Unknown part " ++ key)

/-! ### Windows registry (windowsMainService.ts) -/

/-- One `onDidChangeWindowsCount` firing. -/
structure WindowsCountEvent where
  oldCount : Nat
  newCount : Nat
deriving DecidableEq, Repr

/-- The observable state of `WindowsMainService`: the id set of the
`windows` map (insertion order kept), the next fresh Electron window id,
the ghost histories of ids ever opened and of ids removed by close or
destroy, and the trace of `onDidChangeWindowsCount` firings (most recent
first). -/
structure WindowsState where
  windows : List Int
  nextWindowId : Int
  openedIds : List Int
  removedIds : List Int
  countEvents : List WindowsCountEvent
deriving DecidableEq, Repr

/-- The service starts with an empty `windows` map. -/
def initialWindowsState : WindowsState :=
  { windows := [], nextWindowId := 1, openedIds := [], removedIds := [], countEvents := [] }

/-- Embeds `WindowsMainService.getWindowCount`: `this.windows.size`. -/
def getWindowCount (s : WindowsState) : Nat := s.windows.length

/-- Embeds `WindowsMainService.getWindowById`: `this.windows.get(windowId)`,
with windows represented by their ids. -/
def getWindowById (s : WindowsState) (id : Int) : Option Int :=
  if id ∈ s.windows then some id else none

/-- The new-window branch of `WindowsMainService.openInBrowserWindow`:
create a window with a fresh id, `this.windows.set(id, window)`, then
fire `onDidChangeWindowsCount` with
`oldCount = getWindowCount() - 1, newCount = getWindowCount()`
(both read after the insertion). -/
def openWindowStep (s : WindowsState) : WindowsState :=
  let id := s.nextWindowId
  let windows' := if id ∈ s.windows then s.windows else s.windows ++ [id]
  { windows := windows'
    nextWindowId := s.nextWindowId + 1
    openedIds := s.openedIds ++ [id]
    removedIds := s.removedIds
    countEvents := ⟨windows'.length - 1, windows'.length⟩ :: s.countEvents }

/-- Embeds `WindowsMainService.onWindowClosed`: `this.windows.delete(window.id)`
then fire `onDidChangeWindowsCount` with
`oldCount = getWindowCount() + 1, newCount = getWindowCount()`
(both read after the deletion). -/
def closeWindowStep (s : WindowsState) (id : Int) : WindowsState :=
  let windows' := s.windows.erase id
  { windows := windows'
    nextWindowId := s.nextWindowId
    openedIds := s.openedIds
    removedIds := s.removedIds ++ [id]
    countEvents := ⟨windows'.length + 1, windows'.length⟩ :: s.countEvents }

/-- Embeds `WindowsMainService.onWindowDestroyed`: `this.windows.delete(window.id)`
and fire `onDidDestroyWindow`; no `onDidChangeWindowsCount` firing. -/
def destroyWindowStep (s : WindowsState) (id : Int) : WindowsState :=
  { s with windows := s.windows.erase id, removedIds := s.removedIds ++ [id] }

/-- The operations driving the registry. -/
inductive WindowOp
  | openWindow
  | closeWindow (id : Int)
  | destroyWindow (id : Int)
deriving DecidableEq, Repr

/-- One registry transition. -/
def windowsStep (s : WindowsState) : WindowOp → WindowsState
  | .openWindow => openWindowStep s
  | .closeWindow id => closeWindowStep s id
  | .destroyWindow id => destroyWindowStep s id

/-- Embeds `onDidClose` / `onDidDestroy` listeners exist only for windows the
service created, so valid traces close or destroy only ids opened
earlier. -/
def windowsOpsValid (s : WindowsState) : List WindowOp → Prop
  | [] => True
  | op :: rest =>
    (match op with
     | WindowOp.openWindow => True
     | WindowOp.closeWindow id => id ∈ s.openedIds
     | WindowOp.destroyWindow id => id ∈ s.openedIds) ∧
    windowsOpsValid (windowsStep s op) rest

/-- Run a trace from a state. -/
def runWindowOpsFrom (s : WindowsState) (ops : List WindowOp) : WindowsState :=
  ops.foldl windowsStep s

/-- Run a trace from the initial service state. -/
def runWindowOps (ops : List WindowOp) : WindowsState :=
  runWindowOpsFrom initialWindowsState ops

/-! ## Theorems -/

/-- C1: For every window state whose x, y, width or height is not a
number, or whose width ≤ 0 or height ≤ 0,
`WindowStateValidator.validateWindowState` returns `undefined` (the
state is rejected rather than repaired), regardless of the number of
displays. -/
theorem validateWindowState_rejects_invalid
    (state : IWindowState) (displays : List Display)
    (gdm : Rect → Option Display) (dws : WindowMode → IWindowState)
    (h : state.x = none ∨ state.y = none ∨ state.width = none ∨ state.height = none ∨
      (∃ w, state.width = some w ∧ w ≤ 0) ∨ (∃ k, state.height = some k ∧ k ≤ 0)) :
    validateWindowState state displays gdm dws = none := by
  unfold validateWindowState
  rcases hx : state.x with _ | x <;> rcases hy : state.y with _ | y <;>
    rcases hw : state.width with _ | w <;> rcases hh : state.height with _ | k
  all_goals try rfl
  rw [hx, hy, hw, hh] at h
  simp only [reduceCtorEq, Option.some.injEq, false_or] at h
  have hcond : w ≤ 0 ∨ k ≤ 0 := by
    rcases h with ⟨w', hw', hle⟩ | ⟨k', hk', hle⟩
    · exact Or.inl (hw' ▸ hle)
    · exact Or.inr (hk' ▸ hle)
  dsimp only
  rw [if_pos hcond]

/-- Witness for C1 at a concrete rejected state. -/
theorem validateWindowState_rejects_invalid_witness :
    validateWindowState
      { x := some 10, y := some 10, width := some 0, height := some 20 }
      [] (fun _ => none) (fun _ => {}) = none :=
  validateWindowState_rejects_invalid _ _ _ _
    (Or.inr (Or.inr (Or.inr (Or.inr (Or.inl ⟨0, rfl, le_refl 0⟩)))))

/-- C2: For every window state with numeric x, y and positive width,
height, when exactly one display is present and that display has a
usable working area, `validateWindowState` returns a state (never
`undefined`) whose width and height do not exceed the working area's
width and height and whose x and y are at least the working area's
origin x and y. -/
theorem validateWindowState_single_display_bounds
    (state : IWindowState) (d : Display) (wa : Rect)
    (gdm : Rect → Option Display) (dws : WindowMode → IWindowState)
    (x y w h : Int)
    (hx : state.x = some x) (hy : state.y = some y)
    (hw : state.width = some w) (hh : state.height = some h)
    (hwpos : 0 < w) (hhpos : 0 < h)
    (hwa : getWorkingArea d = some wa) :
    ∃ s', validateWindowState state [d] gdm dws = some s' ∧
      (∃ w', s'.width = some w' ∧ w' ≤ wa.width) ∧
      (∃ h', s'.height = some h' ∧ h' ≤ wa.height) ∧
      (∃ x', s'.x = some x' ∧ wa.x ≤ x') ∧
      (∃ y', s'.y = some y' ∧ wa.y ≤ y') := by
  unfold validateWindowState
  rw [hx, hy, hw, hh]
  dsimp only
  rw [if_neg (by omega : ¬(w ≤ 0 ∨ h ≤ 0)), hwa]
  dsimp only
  refine ⟨_, rfl, ⟨_, rfl, ?_⟩, ⟨_, rfl, ?_⟩, ⟨_, rfl, ?_⟩, ⟨_, rfl, ?_⟩⟩
  all_goals split_ifs <;> omega

/-- Witness for C2 at a concrete in-bounds state on one display. -/
theorem validateWindowState_single_display_bounds_witness :
    ∃ s', validateWindowState
        { x := some 10, y := some 20, width := some 800, height := some 600 }
        [⟨1, ⟨0, 0, 1920, 1080⟩, ⟨0, 0, 1920, 1040⟩⟩]
        (fun _ => none) (fun _ => {}) = some s' ∧
      (∃ w', s'.width = some w' ∧ w' ≤ 1920) ∧
      (∃ h', s'.height = some h' ∧ h' ≤ 1040) ∧
      (∃ x', s'.x = some x' ∧ 0 ≤ x') ∧
      (∃ y', s'.y = some y' ∧ 0 ≤ y') :=
  validateWindowState_single_display_bounds _ _ ⟨0, 0, 1920, 1040⟩ _ _
    10 20 800 600 rfl rfl rfl rfl (by omega) (by omega) rfl

/-- C3 counterexample: `CommandService.executeCommand` is not a
`Method not implemented.` stub: with a registered command it resolves
with the handler's result, and with an unknown command it rejects with
`command '<id>' not found`. -/
theorem executeCommand_not_stub_counterexample :
    (executeCommand sampleRegistry "sample.command" []).fst = .ok 42 ∧
    (executeCommand sampleRegistry "missing.command" []).fst =
      .error (.notFound "command 'missing.command' not found") := by
  exact ⟨rfl, rfl⟩

/-- C3 (amended): `CommandService.executeCommand` dispatches to the
`CommandsRegistry`: it rejects with `command '<id>' not found` when no
command with the id is registered, and otherwise invokes the registered
handler, resolving with its result or rejecting with what it threw. -/
theorem executeCommand_dispatches_to_registry
    (registry : CommandsRegistry) (id : String) (args : List Int) :
    (registry id = none →
      (executeCommand registry id args).fst =
        .error (.notFound ("command '" ++ id ++ "' not found"))) ∧
    (∀ handler r, registry id = some handler → handler args = .ok r →
      (executeCommand registry id args).fst = .ok r) ∧
    (∀ handler e, registry id = some handler → handler args = .error e →
      (executeCommand registry id args).fst = .error (.thrown e)) := by
  refine ⟨fun hnone => ?_, fun handler r hreg hok => ?_, fun handler e hreg herr => ?_⟩
  · simp [executeCommand, tryExecuteCommand, hnone]
  · simp [executeCommand, tryExecuteCommand, hreg, hok]
  · simp [executeCommand, tryExecuteCommand, hreg, herr]

/-- Witness for the amended C3 at concrete registries. -/
theorem executeCommand_dispatches_to_registry_witness :
    (executeCommand sampleRegistry "missing.command" []).fst =
      .error (.notFound ("command '" ++ "missing.command" ++ "' not found")) ∧
    (executeCommand sampleRegistry "sample.command" [1]).fst = .ok 42 ∧
    (executeCommand sampleThrowingRegistry "boom.command" []).fst =
      .error (.thrown "boom") :=
  ⟨(executeCommand_dispatches_to_registry sampleRegistry "missing.command" []).1 rfl,
   (executeCommand_dispatches_to_registry sampleRegistry "sample.command" [1]).2.1
     (fun _ => .ok 42) 42 rfl rfl,
   (executeCommand_dispatches_to_registry sampleThrowingRegistry "boom.command" []).2.2
     (fun _ => .error "boom") "boom" rfl rfl⟩

/-- C4: every listed method of `WorkbenchConfigurationService`
(`getConfigurationData`, `updateValue`, `inspect`,
`reloadConfiguration`, `keys`, `whenRemoteConfigurationLoaded`,
`isSettingAppliedForAllProfiles`) and
`WorkbenchThemeService.getFileIconTheme` throws an `Error` whose
message is `Method not implemented.`, for all arguments. -/
theorem stub_services_throw_method_not_implemented :
    WorkbenchConfigurationService.getConfigurationData =
      .error "Method not implemented." ∧
    (∀ key value, WorkbenchConfigurationService.updateValue key value =
      .error "Method not implemented.") ∧
    (∀ key, WorkbenchConfigurationService.inspect key =
      .error "Method not implemented.") ∧
    (∀ target, WorkbenchConfigurationService.reloadConfiguration target =
      .error "Method not implemented.") ∧
    WorkbenchConfigurationService.keys = .error "Method not implemented." ∧
    WorkbenchConfigurationService.whenRemoteConfigurationLoaded =
      .error "Method not implemented." ∧
    (∀ setting, WorkbenchConfigurationService.isSettingAppliedForAllProfiles setting =
      .error "Method not implemented.") ∧
    WorkbenchThemeService.getFileIconTheme = .error "Method not implemented." :=
  ⟨rfl, fun _ _ => rfl, fun _ => rfl, fun _ => rfl, rfl, rfl, fun _ => rfl, rfl⟩

/-- C6: every configuration produced by `defaultBrowserWindowOptions`
has `webPreferences.sandbox` true and `enableWebSQL`, `spellcheck`
false, for all window states, overrides and caller-supplied
`webPreferences` (the literal fields overwrite the spread caller
preferences, so `sandbox` cannot be overridden). -/
theorem defaultBrowserWindowOptions_webPreferences_locked
    (env : WindowsEnv) (windowState : IWindowState)
    (overrides : Option DefaultBrowserWindowOptionsOverrides)
    (webPrefs : WebPreferences) :
    (defaultBrowserWindowOptions env windowState overrides webPrefs).webPreferences.sandbox =
      some true ∧
    (defaultBrowserWindowOptions env windowState overrides webPrefs).webPreferences.enableWebSQL =
      some false ∧
    (defaultBrowserWindowOptions env windowState overrides webPrefs).webPreferences.spellcheck =
      some false := by
  unfold defaultBrowserWindowOptions
  dsimp only
  split_ifs <;> exact ⟨rfl, rfl, rfl⟩

/-- C9: `executeCommand` rejects with `command '<id>' not found` and an
empty event trace exactly when the id is unregistered; with a
registered handler it fires `onWillExecuteCommand` before the handler
runs, fires `onDidExecuteCommand` only when the handler returns
normally, and rejects with the thrown error otherwise. -/
theorem executeCommand_notFound_iff_and_events
    (registry : CommandsRegistry) (id : String) (args : List Int) :
    (((executeCommand registry id args).fst =
        .error (.notFound ("command '" ++ id ++ "' not found")) ∧
      (executeCommand registry id args).snd = []) ↔ registry id = none) ∧
    (∀ handler, registry id = some handler →
      (∀ r, handler args = .ok r →
        (executeCommand registry id args).fst = .ok r ∧
        (executeCommand registry id args).snd =
          [.willExecuteCommand id args, .handlerInvoked id args,
            .didExecuteCommand id args]) ∧
      (∀ e, handler args = .error e →
        (executeCommand registry id args).fst = .error (.thrown e) ∧
        (executeCommand registry id args).snd =
          [.willExecuteCommand id args, .handlerInvoked id args])) := by
  constructor
  · constructor
    · rintro ⟨hfst, hsnd⟩
      cases hreg : registry id with
      | none => rfl
      | some handler =>
        exfalso
        simp only [executeCommand, tryExecuteCommand, hreg] at hsnd
        cases hargs : handler args <;> rw [hargs] at hsnd <;> simp at hsnd
    · intro hnone
      simp [executeCommand, tryExecuteCommand, hnone]
  · intro handler hreg
    constructor
    · intro r hok
      simp [executeCommand, tryExecuteCommand, hreg, hok]
    · intro e herr
      simp [executeCommand, tryExecuteCommand, hreg, herr]

/-- Witness for C9 at concrete registries. -/
theorem executeCommand_notFound_iff_and_events_witness :
    ((executeCommand sampleRegistry "missing.command" []).fst =
        .error (.notFound ("command '" ++ "missing.command" ++ "' not found")) ∧
      (executeCommand sampleRegistry "missing.command" []).snd = []) ∧
    ((executeCommand sampleRegistry "sample.command" [7]).fst = .ok 42 ∧
      (executeCommand sampleRegistry "sample.command" [7]).snd =
        [.willExecuteCommand "sample.command" [7],
          .handlerInvoked "sample.command" [7],
          .didExecuteCommand "sample.command" [7]]) ∧
    ((executeCommand sampleThrowingRegistry "boom.command" []).fst =
        .error (.thrown "boom") ∧
      (executeCommand sampleThrowingRegistry "boom.command" []).snd =
        [.willExecuteCommand "boom.command" [],
          .handlerInvoked "boom.command" []]) :=
  ⟨(executeCommand_notFound_iff_and_events sampleRegistry "missing.command" []).1.mpr rfl,
   ((executeCommand_notFound_iff_and_events sampleRegistry "sample.command" [7]).2
     (fun _ => .ok 42) rfl).1 42 rfl,
   ((executeCommand_notFound_iff_and_events sampleThrowingRegistry "boom.command" []).2
     (fun _ => .error "boom") rfl).2 "boom" rfl⟩

/-- Loop invariant of `getLastFocused`: provided the running best window
(if any) carries exactly the running maximum, the loop returns `none`
iff it started with no best window and no element beats the running
maximum; and a returned window dominates the running maximum and every
element of the list. -/
theorem getLastFocusedGo_spec (ws : List FocusWindow) :
    ∀ (best : Option FocusWindow) (maxT : ℚ),
      (∀ b, best = some b → b.lastFocusTime = maxT) →
      ((getLastFocusedGo ws best maxT = none ↔
        best = none ∧ ∀ w ∈ ws, w.lastFocusTime ≤ maxT) ∧
      (∀ r, getLastFocusedGo ws best maxT = some r →
        maxT ≤ r.lastFocusTime ∧
        ((r ∈ ws ∧ maxT < r.lastFocusTime) ∨ best = some r) ∧
        ∀ w ∈ ws, w.lastFocusTime ≤ r.lastFocusTime)) := by
  induction ws with
  | nil =>
    intro best maxT hinv
    constructor
    · simp [getLastFocusedGo]
    · intro r hr
      simp only [getLastFocusedGo] at hr
      refine ⟨le_of_eq (hinv r hr).symm, Or.inr hr, by simp⟩
  | cons w ws ih =>
    intro best maxT hinv
    by_cases hlt : maxT < w.lastFocusTime
    · rw [getLastFocusedGo, if_pos hlt]
      have hinv' : ∀ b, some w = some b → b.lastFocusTime = w.lastFocusTime := by
        rintro b hb
        cases hb
        rfl
      obtain ⟨ihA, ihB⟩ := ih (some w) w.lastFocusTime hinv'
      constructor
      · refine iff_of_false (fun hnone => ?_) (fun hcons => ?_)
        · exact Option.noConfusion (ihA.mp hnone).1
        · exact absurd (hcons.2 w (List.mem_cons_self w ws)) (not_le.mpr hlt)
      · intro r hr
        obtain ⟨hle, hmem, hall⟩ := ihB r hr
        refine ⟨le_trans (le_of_lt hlt) hle, ?_, ?_⟩
        · rcases hmem with ⟨hrws, hgt⟩ | heq
          · exact Or.inl ⟨List.mem_cons_of_mem _ hrws, lt_trans hlt hgt⟩
          · cases Option.some.inj heq
            exact Or.inl ⟨List.mem_cons_self w ws, hlt⟩
        · intro v hv
          rcases List.mem_cons.mp hv with rfl | hvws
          · exact hle
          · exact hall v hvws
    · rw [getLastFocusedGo, if_neg hlt]
      push_neg at hlt
      obtain ⟨ihA, ihB⟩ := ih best maxT hinv
      constructor
      · rw [ihA]
        constructor
        · rintro ⟨hb, hall⟩
          refine ⟨hb, fun v hv => ?_⟩
          rcases List.mem_cons.mp hv with rfl | hvws
          · exact hlt
          · exact hall v hvws
        · rintro ⟨hb, hall⟩
          exact ⟨hb, fun v hv => hall v (List.mem_cons_of_mem _ hv)⟩
      · intro r hr
        obtain ⟨hle, hmem, hall⟩ := ihB r hr
        refine ⟨hle, ?_, ?_⟩
        · rcases hmem with ⟨hrws, hgt⟩ | heq
          · exact Or.inl ⟨List.mem_cons_of_mem _ hrws, hgt⟩
          · exact Or.inr heq
        · intro v hv
          rcases List.mem_cons.mp hv with rfl | hvws
          · exact le_trans hlt hle
          · exact hall v hvws

/-- C10 counterexample: `getLastFocused` of the non-empty list holding
one window whose `lastFocusTime` is 0 returns `undefined`, because the
running maximum starts at the positive constant `Number.MIN_VALUE` and
the comparison is strict. -/
theorem getLastFocused_nonempty_none_counterexample :
    getLastFocused [⟨1, 0⟩] = none ∧ ([(⟨1, 0⟩ : FocusWindow)] ≠ []) := by
  constructor
  · rw [getLastFocused, getLastFocusedGo,
      if_neg (by norm_num [jsNumberMinValue] : ¬(jsNumberMinValue < (0 : ℚ)))]
    rfl
  · simp

/-- C10 (amended): `getLastFocused` returns `undefined` iff the list is
empty or every window's `lastFocusTime` is at most `Number.MIN_VALUE`;
a returned window is a member with `lastFocusTime` maximal among the
list; in particular some window is returned whenever some window has
`lastFocusTime > Number.MIN_VALUE`. -/
theorem getLastFocused_max_spec (ws : List FocusWindow) :
    (getLastFocused ws = none ↔ ∀ w ∈ ws, w.lastFocusTime ≤ jsNumberMinValue) ∧
    (∀ r, getLastFocused ws = some r →
      r ∈ ws ∧ jsNumberMinValue < r.lastFocusTime ∧
      ∀ w ∈ ws, w.lastFocusTime ≤ r.lastFocusTime) ∧
    ((∃ w ∈ ws, jsNumberMinValue < w.lastFocusTime) →
      ∃ r, getLastFocused ws = some r) := by
  obtain ⟨hA, hB⟩ := getLastFocusedGo_spec ws none jsNumberMinValue
    (fun b hb => Option.noConfusion hb)
  refine ⟨?_, ?_, ?_⟩
  · rw [getLastFocused, hA]
    simp
  · intro r hr
    obtain ⟨hle, hmem, hall⟩ := hB r hr
    rcases hmem with ⟨hrws, hgt⟩ | heq
    · exact ⟨hrws, hgt, hall⟩
    · exact Option.noConfusion heq
  · rintro ⟨v, hv, hvgt⟩
    cases hres : getLastFocused ws with
    | some r => exact ⟨r, rfl⟩
    | none => exact absurd ((hA.mp hres).2 v hv) (not_le.mpr hvgt)

/-- Witness for the amended C10 at a concrete two-window list. -/
theorem getLastFocused_max_spec_witness :
    ∃ r, getLastFocused [⟨1, 5⟩, ⟨2, 3⟩] = some r :=
  (getLastFocused_max_spec [⟨1, 5⟩, ⟨2, 3⟩]).2.2
    ⟨⟨1, 5⟩, by simp, by norm_num [jsNumberMinValue]⟩

/-- Single-call invariant of a multi-window timeout: the handler has run
at most once, and not at all while the single-call flag is unset. -/
def MultiInv (s : MultiTimeout) : Prop :=
  s.handlerRuns ≤ 1 ∧ (s.singleCallDone = false → s.handlerRuns = 0)

theorem multiInv_schedule (wins : List WinInfo) : MultiInv (scheduleMultiTimeout wins) :=
  ⟨Nat.zero_le 1, fun _ => rfl⟩

theorem multiInv_fireEntry {s : MultiTimeout} (h : MultiInv s) (i : Nat) :
    MultiInv (fireEntry s i) := by
  unfold fireEntry
  cases hg : s.entriesDidClear.get? i with
  | none => exact h
  | some b =>
    cases b with
    | true => exact h
    | false =>
      cases hd : s.singleCallDone with
      | true => simpa [hd] using h
      | false =>
        rw [if_neg (by simp [hd])]
        exact ⟨by rw [h.2 hd], fun hfalse => Bool.noConfusion hfalse⟩

theorem multiInv_fireAll {s : MultiTimeout} (h : MultiInv s) (fires : List Nat) :
    MultiInv (fireAll s fires) := by
  induction fires generalizing s with
  | nil => exact h
  | cons i rest ih => exact ih (multiInv_fireEntry h i)

/-- Once every per-window entry is cleared, a native firing does
nothing. -/
theorem fireEntry_of_all_cleared {s : MultiTimeout}
    (h : ∀ b ∈ s.entriesDidClear, b = true) (i : Nat) : fireEntry s i = s := by
  unfold fireEntry
  cases hg : s.entriesDidClear.get? i with
  | none => rfl
  | some b =>
    have hb : b = true := h b (List.get?_mem hg)
    subst hb
    rfl

theorem fireAll_of_all_cleared {s : MultiTimeout}
    (h : ∀ b ∈ s.entriesDidClear, b = true) (fires : List Nat) : fireAll s fires = s := by
  induction fires with
  | nil => rfl
  | cons i rest ih =>
    show fireAll (fireEntry s i) rest = s
    rw [fireEntry_of_all_cleared h i, ih]

/-- C5: for a timeout scheduled through the patched `setTimeout` with a
function handler, nonzero delay and more than one open window, the
patched call takes the multi-window path, schedules one per-window
native timer for every window that is not a hidden auxiliary window
(so in particular for every non-hidden window), the handler executes at
most once in total under any interleaving of native firings, and the
patched `clearTimeout` called while the handler has not yet run marks
every per-window entry cleared so that the handler never runs. -/
theorem multiWindowTimeout_at_most_once
    (windowsCount : Nat) (timeout : Nat) (wins : List WinInfo)
    (hcount : 1 < windowsCount) (htimeout : timeout ≠ 0) :
    patchedSetTimeout windowsCount false timeout wins =
      .multi (scheduleMultiTimeout wins) ∧
    (scheduleMultiTimeout wins).entriesDidClear.length =
      (wins.filter (fun w => schedulesEntry w)).length ∧
    (∀ fires, (fireAll (scheduleMultiTimeout wins) fires).handlerRuns ≤ 1) ∧
    (∀ fires1, (fireAll (scheduleMultiTimeout wins) fires1).handlerRuns = 0 →
      (∀ b ∈ (patchedClearTimeout
          (fireAll (scheduleMultiTimeout wins) fires1)).entriesDidClear, b = true) ∧
      ∀ fires2, (fireAll (patchedClearTimeout
          (fireAll (scheduleMultiTimeout wins) fires1)) fires2).handlerRuns = 0) := by
  refine ⟨?_, ?_, ?_, ?_⟩
  · unfold patchedSetTimeout
    rw [if_neg]
    push_neg
    exact ⟨by omega, fun hcontra => Bool.noConfusion hcontra, htimeout⟩
  · simp [scheduleMultiTimeout]
  · intro fires
    exact (multiInv_fireAll (multiInv_schedule wins) fires).1
  · intro fires1 hruns
    have hcleared : ∀ b ∈ (patchedClearTimeout
        (fireAll (scheduleMultiTimeout wins) fires1)).entriesDidClear, b = true := by
      intro b hb
      simp only [patchedClearTimeout, List.mem_map] at hb
      obtain ⟨_, _, hb'⟩ := hb
      exact hb'.symm
    refine ⟨hcleared, fun fires2 => ?_⟩
    rw [fireAll_of_all_cleared hcleared fires2]
    exact hruns

/-- Witness for C5 at two windows and delay 5. -/
theorem multiWindowTimeout_at_most_once_witness :
    patchedSetTimeout 2 false 5 [⟨false, false⟩, ⟨true, true⟩] =
      .multi (scheduleMultiTimeout [⟨false, false⟩, ⟨true, true⟩]) :=
  (multiWindowTimeout_at_most_once 2 5 [⟨false, false⟩, ⟨true, true⟩]
    (by omega) (by omega)).1

theorem mapGet_mapSet_self (m : PartsMap) (k : String) (v : Part) :
    mapGet (mapSet m k v) k = some v := by
  induction m with
  | nil => simp [mapSet, mapGet]
  | cons kv rest ih =>
    obtain ⟨k', v'⟩ := kv
    by_cases hk : k' = k
    · simp [mapSet, mapGet, hk]
    · simp [mapSet, mapGet, hk, ih]

theorem mapGet_eq_none_of_not_mem_keys {m : PartsMap} {k : String}
    (h : k ∉ m.map Prod.fst) : mapGet m k = none := by
  induction m with
  | nil => rfl
  | cons kv rest ih =>
    obtain ⟨k', v'⟩ := kv
    simp only [List.map_cons, List.mem_cons] at h
    push_neg at h
    rw [mapGet, if_neg (fun hcontra => h.1 hcontra.symm)]
    exact ih h.2

theorem mem_keys_mapSet {m : PartsMap} {k x : String} {v : Part}
    (h : x ∈ (mapSet m k v).map Prod.fst) : x ∈ m.map Prod.fst ∨ x = k := by
  induction m with
  | nil => simpa [mapSet] using h
  | cons kv rest ih =>
    obtain ⟨k', v'⟩ := kv
    by_cases hk : k' = k
    · simp only [mapSet, if_pos hk, List.map_cons, List.mem_cons] at h
      rcases h with rfl | h
      · exact Or.inr rfl
      · exact Or.inl (by simp [h])
    · simp only [mapSet, if_neg hk, List.map_cons, List.mem_cons] at h
      rcases h with rfl | h
      · simp
      · rcases ih h with h' | h'
        · simp [h']
        · exact Or.inr h'

theorem keys_mapSet_nodup {m : PartsMap} {k : String} {v : Part}
    (h : (m.map Prod.fst).Nodup) : ((mapSet m k v).map Prod.fst).Nodup := by
  induction m with
  | nil => simp [mapSet]
  | cons kv rest ih =>
    obtain ⟨k', v'⟩ := kv
    simp only [List.map_cons, List.nodup_cons] at h
    by_cases hk : k' = k
    · subst hk
      simpa [mapSet, List.nodup_cons] using h
    · simp only [mapSet, if_neg hk, List.map_cons, List.nodup_cons]
      refine ⟨fun hmem => ?_, ih h.2⟩
      rcases mem_keys_mapSet hmem with h' | h'
      · exact h.1 h'
      · exact hk h'

theorem mapGet_mapDelete_self {m : PartsMap} (k : String)
    (h : (m.map Prod.fst).Nodup) : mapGet (mapDelete m k) k = none := by
  induction m with
  | nil => rfl
  | cons kv rest ih =>
    obtain ⟨k', v'⟩ := kv
    simp only [List.map_cons, List.nodup_cons] at h
    by_cases hk : k' = k
    · subst hk
      rw [mapDelete, if_pos rfl]
      exact mapGet_eq_none_of_not_mem_keys h.1
    · rw [mapDelete, if_neg hk, mapGet, if_neg hk]
      exact ih h.2

/-- C7: part registration and lookup round-trip: after
`layout.registerPart(p)`, `getPart(p.getId())` returns exactly `p`; for
a key with no registered part, `getPart(key)` throws
`Unknown part <key>`; and once the disposable returned by
`registerPart` runs (on a registry whose keys are unique, as a JS `Map`
guarantees), `getPart(p.getId())` throws again. -/
theorem registerPart_getPart_roundtrip (m : PartsMap) (p : Part) (key : String) :
    getPart (registerPart m p).fst p.id = .ok p ∧
    (mapGet m key = none → getPart m key = .error ("Unknown part " ++ key)) ∧
    ((m.map Prod.fst).Nodup →
      getPart ((registerPart m p).snd (registerPart m p).fst) p.id =
        .error ("Unknown part " ++ p.id)) := by
  refine ⟨?_, fun hnone => ?_, fun hnd => ?_⟩
  · simp [getPart, registerPart, mapGet_mapSet_self]
  · simp [getPart, hnone]
  · simp [getPart, registerPart, mapGet_mapDelete_self p.id (keys_mapSet_nodup hnd)]

/-- Witness for C7 on the empty registry and a concrete part. -/
theorem registerPart_getPart_roundtrip_witness :
    getPart (registerPart [] ⟨"workbench.parts.titlebar", 0⟩).fst
      "workbench.parts.titlebar" = .ok ⟨"workbench.parts.titlebar", 0⟩ ∧
    getPart ([] : PartsMap) "workbench.parts.sidebar" =
      .error ("Unknown part " ++ "workbench.parts.sidebar") :=
  ⟨(registerPart_getPart_roundtrip [] ⟨"workbench.parts.titlebar", 0⟩
      "workbench.parts.sidebar").1,
   (registerPart_getPart_roundtrip [] ⟨"workbench.parts.titlebar", 0⟩
      "workbench.parts.sidebar").2.1 rfl⟩

/-- Invariant of the windows registry: opened ids are distinct and below
the fresh-id counter, removed ids were opened, and the `windows` map
holds exactly the opened ids not yet removed. -/
def WInv (s : WindowsState) : Prop :=
  s.openedIds.Nodup ∧
  s.windows = s.openedIds.filter (fun i => decide (i ∉ s.removedIds)) ∧
  (∀ i ∈ s.openedIds, i < s.nextWindowId) ∧
  (∀ i ∈ s.removedIds, i ∈ s.openedIds)

theorem winv_initial : WInv initialWindowsState := by
  refine ⟨List.nodup_nil, rfl, ?_, ?_⟩ <;> simp [initialWindowsState]

theorem removeStep_windows_eq {s : WindowsState} (h : WInv s) (id : Int) :
    s.windows.erase id =
      s.openedIds.filter (fun i => decide (i ∉ s.removedIds ++ [id])) := by
  obtain ⟨hnd, hw, -, -⟩ := h
  have hwnd : s.windows.Nodup := hw ▸ hnd.filter _
  rw [hwnd.erase_eq_filter, hw, List.filter_filter]
  apply List.filter_congr
  intro a _
  by_cases h1 : a = id <;> by_cases h2 : a ∈ s.removedIds <;>
    simp [h1, h2, List.mem_append]

theorem winv_open {s : WindowsState} (h : WInv s) : WInv (openWindowStep s) := by
  obtain ⟨hnd, hw, hfresh, hsub⟩ := h
  have hid_opened : s.nextWindowId ∉ s.openedIds :=
    fun hmem => lt_irrefl _ (hfresh _ hmem)
  have hid_removed : s.nextWindowId ∉ s.removedIds :=
    fun hmem => hid_opened (hsub _ hmem)
  have hid_windows : s.nextWindowId ∉ s.windows := by
    rw [hw]
    intro hmem
    exact hid_opened (List.mem_of_mem_filter hmem)
  unfold openWindowStep
  dsimp only
  rw [if_neg hid_windows]
  refine ⟨?_, ?_, ?_, ?_⟩
  · simpa [List.nodup_append] using ⟨hnd, hid_opened⟩
  · rw [List.filter_append, ← hw]
    simp [hid_removed]
  · intro i hi
    dsimp only
    rcases List.mem_append.mp hi with hi' | hi'
    · exact lt_trans (hfresh i hi') (by omega)
    · rw [List.mem_singleton.mp hi']
      omega
  · intro i hi
    exact List.mem_append_left _ (hsub i hi)

theorem winv_remove {s : WindowsState} (h : WInv s) {id : Int}
    (hid : id ∈ s.openedIds) (evs : List WindowsCountEvent) :
    WInv { windows := s.windows.erase id
           nextWindowId := s.nextWindowId
           openedIds := s.openedIds
           removedIds := s.removedIds ++ [id]
           countEvents := evs } := by
  obtain ⟨hnd, hw, hfresh, hsub⟩ := h
  refine ⟨hnd, removeStep_windows_eq ⟨hnd, hw, hfresh, hsub⟩ id, hfresh, ?_⟩
  intro i hi
  rcases List.mem_append.mp hi with hi' | hi'
  · exact hsub i hi'
  · exact List.mem_singleton.mp hi' ▸ hid

theorem winv_step {s : WindowsState} {op : WindowOp} (h : WInv s)
    (hvalid : match op with
      | WindowOp.openWindow => True
      | WindowOp.closeWindow id => id ∈ s.openedIds
      | WindowOp.destroyWindow id => id ∈ s.openedIds) :
    WInv (windowsStep s op) := by
  cases op with
  | openWindow => exact winv_open h
  | closeWindow id => exact winv_remove h hvalid _
  | destroyWindow id => exact winv_remove h hvalid _

theorem winv_run (ops : List WindowOp) :
    ∀ s, WInv s → windowsOpsValid s ops → WInv (runWindowOpsFrom s ops) := by
  induction ops with
  | nil => exact fun s h _ => h
  | cons op rest ih =>
    intro s h hvalid
    exact ih _ (winv_step h hvalid.1) hvalid.2

/-- C8: the `WindowsMainService` window registry is consistent with its
events: along every trace of opens, closes and destroys of created
windows, `getWindowCount()` equals the number of windows opened and not
yet closed or destroyed, and `getWindowById(id)` finds a window iff
such a window exists; opening adds exactly one entry and fires
`onDidChangeWindowsCount` with `newCount = oldCount + 1`; a close
removes the entry and fires `onDidChangeWindowsCount` with
`newCount = oldCount - 1`; a destroy removes the entry without firing
`onDidChangeWindowsCount`. -/
theorem windowsRegistry_consistent :
    (∀ ops, windowsOpsValid initialWindowsState ops →
      getWindowCount (runWindowOps ops) =
        ((runWindowOps ops).openedIds.filter
          (fun i => decide (i ∉ (runWindowOps ops).removedIds))).length ∧
      (∀ id, (getWindowById (runWindowOps ops) id).isSome = true ↔
        id ∈ (runWindowOps ops).openedIds ∧ id ∉ (runWindowOps ops).removedIds)) ∧
    (∀ s : WindowsState, s.nextWindowId ∉ s.windows →
      getWindowCount (openWindowStep s) = getWindowCount s + 1 ∧
      getWindowById (openWindowStep s) s.nextWindowId = some s.nextWindowId ∧
      (openWindowStep s).countEvents =
        { oldCount := getWindowCount s, newCount := getWindowCount s + 1 } ::
          s.countEvents) ∧
    (∀ (s : WindowsState) (id : Int), id ∈ s.windows → s.windows.Nodup →
      getWindowCount (closeWindowStep s id) = getWindowCount s - 1 ∧
      getWindowById (closeWindowStep s id) id = none ∧
      (closeWindowStep s id).countEvents =
        { oldCount := getWindowCount s, newCount := getWindowCount s - 1 } ::
          s.countEvents) ∧
    (∀ (s : WindowsState) (id : Int), id ∈ s.windows → s.windows.Nodup →
      getWindowCount (destroyWindowStep s id) = getWindowCount s - 1 ∧
      getWindowById (destroyWindowStep s id) id = none ∧
      (destroyWindowStep s id).countEvents = s.countEvents) := by
  refine ⟨?_, ?_, ?_, ?_⟩
  · intro ops hvalid
    unfold runWindowOps
    obtain ⟨hnd, hw, hfresh, hsub⟩ := winv_run ops initialWindowsState winv_initial hvalid
    constructor
    · exact congrArg List.length hw
    · intro id
      unfold getWindowById
      by_cases hmem : id ∈ (runWindowOpsFrom initialWindowsState ops).windows
      · rw [if_pos hmem]
        rw [hw, List.mem_filter] at hmem
        simpa using hmem
      · rw [if_neg hmem]
        rw [hw, List.mem_filter] at hmem
        simpa using hmem
  · intro s hfresh
    unfold openWindowStep getWindowCount getWindowById
    dsimp only
    rw [if_neg hfresh]
    refine ⟨by simp, ?_, by simp⟩
    rw [if_pos (List.mem_append_right _ (List.mem_singleton.mpr rfl))]
  · intro s id hmem hnd
    have hpos : 0 < s.windows.length := List.length_pos_of_mem hmem
    unfold closeWindowStep getWindowCount getWindowById
    refine ⟨by simp [List.length_erase_of_mem hmem], ?_, ?_⟩
    · rw [if_neg (hnd.not_mem_erase)]
    · simp only [List.length_erase_of_mem hmem]
      have hsucc : s.windows.length - 1 + 1 = s.windows.length := by omega
      rw [hsucc]
  · intro s id hmem hnd
    unfold destroyWindowStep getWindowCount getWindowById
    refine ⟨by simp [List.length_erase_of_mem hmem], ?_, rfl⟩
    rw [if_neg (hnd.not_mem_erase)]

/-- Witness for C8: one opened window on the trace `[openWindow]`, and
the per-step facts at a concrete state. -/
theorem windowsRegistry_consistent_witness :
    (getWindowCount (runWindowOps [WindowOp.openWindow]) =
      ((runWindowOps [WindowOp.openWindow]).openedIds.filter
        (fun i => decide (i ∉ (runWindowOps [WindowOp.openWindow]).removedIds))).length) ∧
    getWindowCount (openWindowStep initialWindowsState) =
      getWindowCount initialWindowsState + 1 ∧
    getWindowCount
        (closeWindowStep (openWindowStep initialWindowsState) 1) =
      getWindowCount (openWindowStep initialWindowsState) - 1 :=
  ⟨(windowsRegistry_consistent.1 [WindowOp.openWindow] ⟨trivial, trivial⟩).1,
   (windowsRegistry_consistent.2.1 initialWindowsState (by simp [initialWindowsState])).1,
   (windowsRegistry_consistent.2.2.1 (openWindowStep initialWindowsState) 1
     (by simp [openWindowStep, initialWindowsState])
     (by simp [openWindowStep, initialWindowsState])).1⟩

end VSCroxy
